import Mathlib

/-!
Verification of the mr-bridge MQTT bridge core: the topic matcher, the
per-side publish routing, the reload-control trigger, and the
subscription-reconciliation logic of the reload procedure.

The Rust source is embedded shallowly: pure functions become Lean
functions, the broker subscription table becomes an explicit state
(a map from (side, topic filter) to the subscribed QoS), and fallible
client calls (subscribe/unsubscribe) are driven by boolean outcome
oracles so that both the success path and the failure paths of
`reload_config` can be examined.
-/

namespace MrBridge

/-- MQTT quality-of-service levels, as in the rumqttc client library. -/
inductive QoS
  | AtMostOnce
  | AtLeastOnce
  | ExactlyOnce
deriving DecidableEq, Repr

/-- Forwarding direction of a bridge rule (lib.rs, enum Direction). -/
inductive Direction
  | NearToFar
  | FarToNear
  | Wherever
deriving DecidableEq, Repr

/-- A bridge rule (lib.rs, struct BridgeRule): a topic pattern, a direction,
a logging flag and a raw QoS byte (modelled as a Nat). -/
structure BridgeRule where
  topic : String
  direction : Direction
  logging : Bool
  qos : Nat
deriving DecidableEq, Repr

/-- Resolution of the stored QoS byte (lib.rs, `impl BridgeRule { fn qos }`):
0, 1 and 2 map to the three levels, anything else to AtMostOnce. -/
def BridgeRule.qosLevel (r : BridgeRule) : QoS :=
  match r.qos with
  | 0 => QoS.AtMostOnce
  | 1 => QoS.AtLeastOnce
  | 2 => QoS.ExactlyOnce
  | _ => QoS.AtMostOnce

/-- The two broker sides of the bridge. -/
inductive Side
  | near
  | far
deriving DecidableEq, Repr

/-- An inbound publish message as delivered by an eventloop
(topic, payload bytes, the publisher's QoS, retain flag). -/
structure Publish where
  topic : String
  payload : List Nat
  qos : QoS
  retain : Bool
deriving DecidableEq, Repr

/-- Helper for `splitSlash`, walking the character list and collecting the
current segment in reverse. -/
def splitSlashAux : List Char → List Char → List String
  | [], acc => [String.mk acc.reverse]
  | c :: cs, acc =>
    if c = '/' then String.mk acc.reverse :: splitSlashAux cs []
    else splitSlashAux cs (c :: acc)

/-- Embedding of Rust `str::split('/')` as used by `matches_topic`: the
segments between slash occurrences, keeping empty segments, so the empty
string yields one empty segment and a trailing slash yields a trailing
empty segment. -/
def splitSlash (s : String) : List String :=
  splitSlashAux s.data []

/-- Embedding of main.rs `matches_topic`: split subscription and topic on
a slash; if the subscription ends in a hash segment, compare the prefix
segments pairwise (plus matches anything) and require the topic to have at
least as many segments; otherwise require equal segment counts and pairwise
match. -/
def matches_topic (subscription topic : String) : Bool :=
  let sub_parts : List String := splitSlash subscription
  let topic_parts : List String := splitSlash topic
  if sub_parts.getLast? = some "#" then
    let pre : List String := sub_parts.dropLast
    decide (topic_parts.length ≥ pre.length) &&
      (pre.zip topic_parts).all (fun st => st.1 == "+" || st.1 == st.2)
  else
    decide (sub_parts.length = topic_parts.length) &&
      (sub_parts.zip topic_parts).all (fun st => st.1 == "+" || st.1 == st.2)

/-- The matching algorithm exactly as the specification words it (spec
section 4.1): split both on a slash; with a trailing hash segment, the
prefix is all pattern segments but the last, the topic must have at least
as many segments, and every prefix segment equals the corresponding topic
segment or is a plus; with no trailing hash, segment counts must be equal
and every pattern segment is a plus or equals the topic segment. -/
def MatchesSpec (pattern topic : String) : Prop :=
  let ps : List String := splitSlash pattern
  let ts : List String := splitSlash topic
  if ps.getLast? = some "#" then
    let pre : List String := ps.dropLast
    pre.length ≤ ts.length ∧
      ∀ i : Fin pre.length, pre.get i = "+" ∨ pre.get i = ts.getD i ""
  else
    ps.length = ts.length ∧
      ∀ i : Fin ps.length, ps.get i = "+" ∨ ps.get i = ts.getD i ""

lemma zip_all_iff_forall (xs ys : List String) (h : xs.length ≤ ys.length) :
    ((xs.zip ys).all (fun st => st.1 == "+" || st.1 == st.2)) = true ↔
      ∀ i : Fin xs.length, xs.get i = "+" ∨ xs.get i = ys.getD i "" := by
  induction xs generalizing ys with
  | nil => simp
  | cons x xs ih =>
    cases ys with
    | nil => simp at h
    | cons y ys =>
      have h' : xs.length ≤ ys.length := by simpa using h
      simp only [List.zip_cons_cons, List.all_cons, Bool.and_eq_true, ih ys h',
        List.length_cons, Fin.forall_fin_succ, List.get_cons_zero, List.get_cons_succ,
        Fin.val_zero, List.getD_cons_zero, Fin.val_succ, List.getD_cons_succ,
        beq_iff_eq, Bool.or_eq_true]
      exact Iff.rfl

/-- C1: the embedded `matches_topic` agrees, on every pattern and topic,
with the algorithm exactly as the specification words it; in particular a
hash segment anywhere but last is compared literally, since neither side
special-cases it. -/
theorem matches_topic_agrees_spec (pattern topic : String) :
    matches_topic pattern topic = true ↔ MatchesSpec pattern topic := by
  by_cases hl : (splitSlash pattern).getLast? = some "#" <;>
    simp only [matches_topic, MatchesSpec, hl, if_true, if_false, ite_true, ite_false,
      Bool.and_eq_true, decide_eq_true_eq, ge_iff_le, reduceCtorEq] <;>
    constructor
  · rintro ⟨h1, h2⟩
    exact ⟨h1, (zip_all_iff_forall _ _ h1).1 h2⟩
  · rintro ⟨h1, h2⟩
    exact ⟨h1, (zip_all_iff_forall _ _ h1).2 h2⟩
  · rintro ⟨h1, h2⟩
    exact ⟨h1, (zip_all_iff_forall _ _ (le_of_eq h1)).1 h2⟩
  · rintro ⟨h1, h2⟩
    exact ⟨h1, (zip_all_iff_forall _ _ (le_of_eq h1)).2 h2⟩

/-- A forwarded publish issued by one of the handlers: the destination
side together with the arguments of the client publish call. -/
structure Forward where
  dest : Side
  topic : String
  qos : QoS
  retain : Bool
  payload : List Nat
deriving DecidableEq, Repr

/-- Outcome of handling one inbound publish: either the reload path was
taken, or a list of forwarded publishes was issued. -/
inductive HandleResult
  | reload
  | forwards (fwds : List Forward)
deriving DecidableEq, Repr

/-- Per-rule decision of `handle_near_publish`'s rule loop (main.rs): a rule
matching the topic forwards to the far broker unless its direction is
FarToNear, with the rule's resolved QoS and the message's retain flag and
payload. -/
def forwardOfNearRule (r : BridgeRule) (p : Publish) : Option Forward :=
  if matches_topic r.topic p.topic then
    match r.direction with
    | Direction.NearToFar | Direction.Wherever =>
        some ⟨Side.far, p.topic, r.qosLevel, p.retain, p.payload⟩
    | Direction.FarToNear => none
  else none

/-- Per-rule decision of `handle_far_publish`'s rule loop (main.rs): a rule
matching the topic forwards to the near broker unless its direction is
NearToFar. -/
def forwardOfFarRule (r : BridgeRule) (p : Publish) : Option Forward :=
  if matches_topic r.topic p.topic then
    match r.direction with
    | Direction.FarToNear | Direction.Wherever =>
        some ⟨Side.near, p.topic, r.qosLevel, p.retain, p.payload⟩
    | Direction.NearToFar => none
  else none

/-- Embedding of `handle_near_publish` (main.rs): if a reload topic is
configured, the reload broker is "near" and the topic equals the reload
topic, take the reload path; otherwise iterate the rules and forward each
match (list of publish calls of the success path). -/
def handle_near_publish (reload_topic : Option String) (reload_broker : String)
    (rules : List BridgeRule) (p : Publish) : HandleResult :=
  match reload_topic with
  | some rt =>
    if reload_broker == "near" && p.topic == rt then
      HandleResult.reload
    else
      HandleResult.forwards (rules.filterMap (fun r => forwardOfNearRule r p))
  | none => HandleResult.forwards (rules.filterMap (fun r => forwardOfNearRule r p))

/-- Embedding of `handle_far_publish` (main.rs), symmetric to the near
handler with the reload broker compared against "far" and forwards going
to the near broker. -/
def handle_far_publish (reload_topic : Option String) (reload_broker : String)
    (rules : List BridgeRule) (p : Publish) : HandleResult :=
  match reload_topic with
  | some rt =>
    if reload_broker == "far" && p.topic == rt then
      HandleResult.reload
    else
      HandleResult.forwards (rules.filterMap (fun r => forwardOfFarRule r p))
  | none => HandleResult.forwards (rules.filterMap (fun r => forwardOfFarRule r p))

/-- C2: for a rule whose pattern matches the topic, the per-rule routing
decision follows the Direction-by-origin table: Wherever forwards to the
side opposite the origin from either origin, NearToFar forwards only from
near, FarToNear only from far. -/
theorem routing_follows_direction_table (r : BridgeRule) (p : Publish)
    (h : matches_topic r.topic p.topic = true) :
    (r.direction = Direction.Wherever →
      forwardOfNearRule r p = some ⟨Side.far, p.topic, r.qosLevel, p.retain, p.payload⟩ ∧
      forwardOfFarRule r p = some ⟨Side.near, p.topic, r.qosLevel, p.retain, p.payload⟩) ∧
    (r.direction = Direction.NearToFar →
      forwardOfNearRule r p = some ⟨Side.far, p.topic, r.qosLevel, p.retain, p.payload⟩ ∧
      forwardOfFarRule r p = none) ∧
    (r.direction = Direction.FarToNear →
      forwardOfNearRule r p = none ∧
      forwardOfFarRule r p = some ⟨Side.near, p.topic, r.qosLevel, p.retain, p.payload⟩) := by
  refine ⟨fun hd => ?_, fun hd => ?_, fun hd => ?_⟩ <;>
    simp [forwardOfNearRule, forwardOfFarRule, h, hd]

/-- Witness for C2 at a concrete rule and message. -/
theorem routing_follows_direction_table_witness :
    matches_topic "home/+/temp" "home/living/temp" = true ∧
    forwardOfNearRule ⟨"home/+/temp", Direction.Wherever, false, 1⟩
        ⟨"home/living/temp", [50, 50], QoS.AtMostOnce, true⟩ =
      some ⟨Side.far, "home/living/temp", QoS.AtLeastOnce, true, [50, 50]⟩ :=
  ⟨by decide,
    ((routing_follows_direction_table
        ⟨"home/+/temp", Direction.Wherever, false, 1⟩
        ⟨"home/living/temp", [50, 50], QoS.AtMostOnce, true⟩ (by decide)).1 rfl).1⟩

lemma filterMap_if_eq_map_filter {α β : Type} (l : List α) (c : α → Bool) (g : α → β) :
    l.filterMap (fun a => if c a then some (g a) else none) = (l.filter c).map g := by
  induction l with
  | nil => rfl
  | cons a l ih =>
    by_cases h : c a = true <;> simp [List.filterMap_cons, List.filter_cons, h, ih]

lemma forwardOfNearRule_eq_guard (r : BridgeRule) (p : Publish) :
    forwardOfNearRule r p =
      if matches_topic r.topic p.topic &&
          (r.direction == Direction.NearToFar || r.direction == Direction.Wherever) then
        some ⟨Side.far, p.topic, r.qosLevel, p.retain, p.payload⟩
      else none := by
  unfold forwardOfNearRule
  cases hd : r.direction <;> by_cases hm : matches_topic r.topic p.topic = true <;>
    simp [hm, hd]

lemma forwardOfFarRule_eq_guard (r : BridgeRule) (p : Publish) :
    forwardOfFarRule r p =
      if matches_topic r.topic p.topic &&
          (r.direction == Direction.FarToNear || r.direction == Direction.Wherever) then
        some ⟨Side.near, p.topic, r.qosLevel, p.retain, p.payload⟩
      else none := by
  unfold forwardOfFarRule
  cases hd : r.direction <;> by_cases hm : matches_topic r.topic p.topic = true <;>
    simp [hm, hd]

/-- C3: the forward list produced by a handler's rule loop is exactly one
forward per matching direction-eligible rule, in rule order, with no
deduplication, each carrying the rule's own resolved QoS and the original
message's topic, retain flag and payload. -/
theorem each_matching_rule_forwards (rules : List BridgeRule) (p : Publish) :
    (rules.filterMap (fun r => forwardOfNearRule r p) =
      (rules.filter (fun r => matches_topic r.topic p.topic &&
          (r.direction == Direction.NearToFar || r.direction == Direction.Wherever))).map
        (fun r => ⟨Side.far, p.topic, r.qosLevel, p.retain, p.payload⟩)) ∧
    (rules.filterMap (fun r => forwardOfFarRule r p) =
      (rules.filter (fun r => matches_topic r.topic p.topic &&
          (r.direction == Direction.FarToNear || r.direction == Direction.Wherever))).map
        (fun r => ⟨Side.near, p.topic, r.qosLevel, p.retain, p.payload⟩)) := by
  constructor
  · rw [show (fun r => forwardOfNearRule r p) = fun r : BridgeRule =>
        if matches_topic r.topic p.topic &&
            (r.direction == Direction.NearToFar || r.direction == Direction.Wherever) then
          some (⟨Side.far, p.topic, r.qosLevel, p.retain, p.payload⟩ : Forward)
        else none from funext fun r => forwardOfNearRule_eq_guard r p]
    exact filterMap_if_eq_map_filter rules _ _
  · rw [show (fun r => forwardOfFarRule r p) = fun r : BridgeRule =>
        if matches_topic r.topic p.topic &&
            (r.direction == Direction.FarToNear || r.direction == Direction.Wherever) then
          some (⟨Side.near, p.topic, r.qosLevel, p.retain, p.payload⟩ : Forward)
        else none from funext fun r => forwardOfFarRule_eq_guard r p]
    exact filterMap_if_eq_map_filter rules _ _

/-- C8: resolving a rule's stored QoS byte is total and maps 0, 1, 2 to the
three levels and every other value to AtMostOnce (level 0). -/
theorem qos_byte_resolution (r : BridgeRule) :
    r.qosLevel = if r.qos = 1 then QoS.AtLeastOnce
      else if r.qos = 2 then QoS.ExactlyOnce
      else QoS.AtMostOnce := by
  rcases r with ⟨t, d, l, q⟩
  rcases q with _ | _ | _ | q <;> rfl

/-- C7: a handler takes the reload path exactly when the configured reload
broker names its own side and the message topic equals the configured
reload topic; any other inbound publish is routed against the rules, so a
reload-triggering message is never evaluated against the routing table and
a reload-topic message on the other side is routed normally. -/
theorem reload_trigger_iff (rt : Option String) (rb : String)
    (rules : List BridgeRule) (p : Publish) :
    (handle_near_publish rt rb rules p = HandleResult.reload ↔
      rb = "near" ∧ rt = some p.topic) ∧
    (handle_far_publish rt rb rules p = HandleResult.reload ↔
      rb = "far" ∧ rt = some p.topic) ∧
    (handle_near_publish rt rb rules p ≠ HandleResult.reload →
      handle_near_publish rt rb rules p =
        HandleResult.forwards (rules.filterMap (fun r => forwardOfNearRule r p))) ∧
    (handle_far_publish rt rb rules p ≠ HandleResult.reload →
      handle_far_publish rt rb rules p =
        HandleResult.forwards (rules.filterMap (fun r => forwardOfFarRule r p))) := by
  cases rt with
  | none => simp [handle_near_publish, handle_far_publish]
  | some t =>
    refine ⟨?_, ?_, ?_, ?_⟩ <;>
      simp only [handle_near_publish, handle_far_publish] <;>
      by_cases h1 : rb = "near" <;> by_cases h2 : p.topic = t <;>
        by_cases h3 : rb = "far" <;>
        simp [h1, h2, h3] <;>
        exact fun hc => h2 hc.symm

/-- Witness for C7: the concrete reload trigger on the near side, and a
reload-topic message on the far side being routed normally when the reload
broker is "near". -/
theorem reload_trigger_iff_witness :
    handle_near_publish (some "bridge/reload") "near" []
        ⟨"bridge/reload", [], QoS.AtMostOnce, false⟩ = HandleResult.reload ∧
    handle_far_publish (some "bridge/reload") "near"
        [⟨"#", Direction.Wherever, false, 0⟩]
        ⟨"bridge/reload", [49], QoS.AtMostOnce, false⟩ =
      HandleResult.forwards [⟨Side.near, "bridge/reload", QoS.AtMostOnce, false, [49]⟩] := by
  constructor
  · exact (reload_trigger_iff (some "bridge/reload") "near" []
      ⟨"bridge/reload", [], QoS.AtMostOnce, false⟩).1.mpr ⟨rfl, rfl⟩
  · have h := (reload_trigger_iff (some "bridge/reload") "near"
      [⟨"#", Direction.Wherever, false, 0⟩]
      ⟨"bridge/reload", [49], QoS.AtMostOnce, false⟩).2.2.2
    rw [h (by decide)]
    decide

/-- A broker-table operation issued by the bridge: subscribe a (side,
topic filter) at a QoS, or unsubscribe a (side, topic filter). -/
inductive SubOp
  | sub (sd : Side) (topic : String) (q : QoS)
  | unsub (sd : Side) (topic : String)
deriving DecidableEq, Repr

/-- The (side, topic filter) key an operation acts on. -/
def SubOp.key : SubOp → Side × String
  | SubOp.sub sd t _ => (sd, t)
  | SubOp.unsub sd t => (sd, t)

/-- The brokers' subscription table as seen from the bridge client: which
(side, topic filter) pairs are subscribed, and at which QoS. -/
def SubState := Side → String → Option QoS

/-- Effect of one operation on the subscription table: MQTT subscribe
upserts the filter's QoS, unsubscribe removes the filter. -/
def applyOp (st : SubState) : SubOp → SubState
  | SubOp.sub sd t q => fun sd2 t2 => if sd2 = sd ∧ t2 = t then some q else st sd2 t2
  | SubOp.unsub sd t => fun sd2 t2 => if sd2 = sd ∧ t2 = t then none else st sd2 t2

/-- Effect of a sequence of operations, first to last. -/
def applyOps (st : SubState) (ops : List SubOp) : SubState :=
  ops.foldl applyOp st

/-- Subscribe operations a rule gives rise to in `subscribe_to_topics`
(main.rs): NearToFar subscribes on near, FarToNear on far, Wherever on
near then far, always at the rule's resolved QoS. -/
def ruleSubOps (r : BridgeRule) : List SubOp :=
  match r.direction with
  | Direction.NearToFar => [SubOp.sub Side.near r.topic r.qosLevel]
  | Direction.FarToNear => [SubOp.sub Side.far r.topic r.qosLevel]
  | Direction.Wherever =>
      [SubOp.sub Side.near r.topic r.qosLevel, SubOp.sub Side.far r.topic r.qosLevel]

/-- Unsubscribe operations a rule gives rise to in `reload_config`'s
unsubscribe loop (main.rs): the same side mapping as the subscribes. -/
def ruleUnsubOps (r : BridgeRule) : List SubOp :=
  match r.direction with
  | Direction.NearToFar => [SubOp.unsub Side.near r.topic]
  | Direction.FarToNear => [SubOp.unsub Side.far r.topic]
  | Direction.Wherever => [SubOp.unsub Side.near r.topic, SubOp.unsub Side.far r.topic]

/-- Subscribe operations of the rule loop of `subscribe_to_topics`, in
rule order. -/
def rulesSubOps : List BridgeRule → List SubOp
  | [] => []
  | r :: rs => ruleSubOps r ++ rulesSubOps rs

/-- Unsubscribe operations of `reload_config`'s loop over the previous
rules, in rule order. -/
def rulesUnsubOps : List BridgeRule → List SubOp
  | [] => []
  | r :: rs => ruleUnsubOps r ++ rulesUnsubOps rs

/-- Subscribe operation for the reload-control topic at the end of
`subscribe_to_topics` (main.rs): on the named side at AtLeastOnce when the
reload broker selector is "near" or "far"; any other selector only warns
and issues nothing. -/
def reloadSubOps (reload_topic : Option String) (reload_broker : String) : List SubOp :=
  match reload_topic with
  | none => []
  | some t =>
    if reload_broker = "near" then [SubOp.sub Side.near t QoS.AtLeastOnce]
    else if reload_broker = "far" then [SubOp.sub Side.far t QoS.AtLeastOnce]
    else []

/-- The full operation sequence of `subscribe_to_topics` (main.rs): every
rule's subscribes in order, then the reload-control subscribe. -/
def subscribe_to_topics_ops (reload_topic : Option String) (reload_broker : String)
    (rules : List BridgeRule) : List SubOp :=
  rulesSubOps rules ++ reloadSubOps reload_topic reload_broker

/-- Run an operation sequence against fallible broker clients. `subOk`
says whether a subscribe call succeeds: on its failure the run stops with
failure (the `?` operator in `subscribe_to_topics`). `unsubOk` says
whether an unsubscribe succeeds: its failure leaves the table unchanged
and the run continues (the discarded result in `reload_config`). Returns
the table after the calls that took effect, and whether the run
succeeded. -/
def runOps (subOk unsubOk : Side → String → Bool) :
    SubState → List SubOp → SubState × Bool
  | st, [] => (st, true)
  | st, SubOp.sub sd t q :: rest =>
    if subOk sd t then runOps subOk unsubOk (applyOp st (SubOp.sub sd t q)) rest
    else (st, false)
  | st, SubOp.unsub sd t :: rest =>
    if unsubOk sd t then runOps subOk unsubOk (applyOp st (SubOp.unsub sd t)) rest
    else runOps subOk unsubOk st rest

/-- The bridge's mutable state relevant to reload: the active rule set
(behind the RwLock in main.rs) and the brokers' subscription table. -/
structure BridgeState where
  rules : List BridgeRule
  subs : SubState

/-- Embedding of `reload_config` (main.rs). `load` is the outcome of
`BridgeConfig::load_from_file` on the fresh snapshot (none = load or parse
failure). On load failure the function returns an error at once, touching
nothing. Otherwise it runs the best-effort unsubscribes of the previous
rules, swaps the active rule set, then runs `subscribe_to_topics` for the
new rules and the reload topic, propagating that run's failure. The
second component is true exactly when the reload returned Ok. -/
def reload_config (load : Option (List BridgeRule))
    (subOk unsubOk : Side → String → Bool)
    (reload_topic : Option String) (reload_broker : String)
    (bs : BridgeState) : BridgeState × Bool :=
  match load with
  | none => (bs, false)
  | some newRules =>
    let st1 := (runOps subOk unsubOk bs.subs (rulesUnsubOps bs.rules)).1
    let res := runOps subOk unsubOk st1
      (subscribe_to_topics_ops reload_topic reload_broker newRules)
    (⟨newRules, res.1⟩, res.2)

lemma applyOps_append (st : SubState) (a b : List SubOp) :
    applyOps st (a ++ b) = applyOps (applyOps st a) b :=
  List.foldl_append applyOp st a b

lemma applyOps_frame (ops : List SubOp) (st : SubState) (sd : Side) (t : String)
    (h : (sd, t) ∉ ops.map SubOp.key) :
    applyOps st ops sd t = st sd t := by
  induction ops generalizing st with
  | nil => rfl
  | cons op rest ih =>
    simp only [List.map_cons, List.mem_cons, not_or] at h
    obtain ⟨h1, h2⟩ := h
    have hop : applyOp st op sd t = st sd t := by
      cases op with
      | sub sd2 t2 q =>
        have hc : ¬(sd = sd2 ∧ t = t2) := fun hc => h1 (by rw [SubOp.key, hc.1, hc.2])
        simp [applyOp, hc]
      | unsub sd2 t2 =>
        have hc : ¬(sd = sd2 ∧ t = t2) := fun hc => h1 (by rw [SubOp.key, hc.1, hc.2])
        simp [applyOp, hc]
    calc applyOps st (op :: rest) sd t
        = applyOps (applyOp st op) rest sd t := rfl
      _ = applyOp st op sd t := ih (applyOp st op) h2
      _ = st sd t := hop

lemma applyOps_agree (ops : List SubOp) (st₁ st₂ : SubState)
    (h : ∀ sd t, (sd, t) ∉ ops.map SubOp.key → st₁ sd t = st₂ sd t) :
    applyOps st₁ ops = applyOps st₂ ops := by
  induction ops generalizing st₁ st₂ with
  | nil =>
    funext sd t
    exact h sd t (by simp)
  | cons op rest ih =>
    show applyOps (applyOp st₁ op) rest = applyOps (applyOp st₂ op) rest
    apply ih
    intro sd t hk
    by_cases hc : (sd, t) = op.key
    · cases op with
      | sub sd2 t2 q =>
        rw [SubOp.key] at hc
        cases hc
        simp [applyOp]
      | unsub sd2 t2 =>
        rw [SubOp.key] at hc
        cases hc
        simp [applyOp]
    · have hst : st₁ sd t = st₂ sd t := by
        refine h sd t ?_
        simp only [List.map_cons, List.mem_cons, not_or]
        exact ⟨hc, hk⟩
      cases op with
      | sub sd2 t2 q =>
        have hne : ¬(sd = sd2 ∧ t = t2) := fun he => hc (by rw [SubOp.key, he.1, he.2])
        simp [applyOp, hne, hst]
      | unsub sd2 t2 =>
        have hne : ¬(sd = sd2 ∧ t = t2) := fun he => hc (by rw [SubOp.key, he.1, he.2])
        simp [applyOp, hne, hst]

lemma ruleUnsubOps_keys (r : BridgeRule) :
    (ruleUnsubOps r).map SubOp.key = (ruleSubOps r).map SubOp.key := by
  cases hd : r.direction <;> simp [ruleUnsubOps, ruleSubOps, SubOp.key, hd]

lemma rulesUnsubOps_keys (rules : List BridgeRule) :
    (rulesUnsubOps rules).map SubOp.key = (rulesSubOps rules).map SubOp.key := by
  induction rules with
  | nil => rfl
  | cons r rs ih => simp [rulesUnsubOps, rulesSubOps, ruleUnsubOps_keys, ih]

lemma runOps_allOk (st : SubState) (ops : List SubOp) :
    runOps (fun _ _ => true) (fun _ _ => true) st ops = (applyOps st ops, true) := by
  induction ops generalizing st with
  | nil => rfl
  | cons op rest ih =>
    cases op with
    | sub sd t q => simp [runOps, ih, applyOps, List.foldl_cons]
    | unsub sd t => simp [runOps, ih, applyOps, List.foldl_cons]

/-- C4: when loading or parsing the fresh snapshot fails, `reload_config`
returns an error with the bridge state exactly as it was: the active rules
and the subscription table are untouched, since the function returns
before issuing any unsubscribe, swap or subscribe. -/
theorem reload_load_failure_changes_nothing (subOk unsubOk : Side → String → Bool)
    (reload_topic : Option String) (reload_broker : String) (bs : BridgeState) :
    reload_config none subOk unsubOk reload_topic reload_broker bs = (bs, false) := rfl

/-- C5: once the fresh snapshot loads, the returned active rule set is the
new one for every outcome of the subscribe calls, so a subscription
failure after the swap reports an error without rolling the configuration
back; the concrete second part exhibits such a failed reload, whose
subscriptions are incomplete while the rules have advanced. -/
theorem reload_swap_survives_subscribe_failure :
    (∀ (newRules : List BridgeRule) (subOk unsubOk : Side → String → Bool)
      (reload_topic : Option String) (reload_broker : String) (bs : BridgeState),
      (reload_config (some newRules) subOk unsubOk reload_topic reload_broker bs).1.rules =
        newRules) ∧
    ((reload_config
        (some [⟨"a", Direction.NearToFar, false, 0⟩, ⟨"b", Direction.FarToNear, false, 1⟩])
        (fun _ t => t == "a") (fun _ _ => true) none "near"
        ⟨[], fun _ _ => none⟩).2 = false ∧
      (reload_config
        (some [⟨"a", Direction.NearToFar, false, 0⟩, ⟨"b", Direction.FarToNear, false, 1⟩])
        (fun _ t => t == "a") (fun _ _ => true) none "near"
        ⟨[], fun _ _ => none⟩).1.rules =
        [⟨"a", Direction.NearToFar, false, 0⟩, ⟨"b", Direction.FarToNear, false, 1⟩] ∧
      (reload_config
        (some [⟨"a", Direction.NearToFar, false, 0⟩, ⟨"b", Direction.FarToNear, false, 1⟩])
        (fun _ t => t == "a") (fun _ _ => true) none "near"
        ⟨[], fun _ _ => none⟩).1.subs Side.near "a" = some QoS.AtMostOnce ∧
      (reload_config
        (some [⟨"a", Direction.NearToFar, false, 0⟩, ⟨"b", Direction.FarToNear, false, 1⟩])
        (fun _ t => t == "a") (fun _ _ => true) none "near"
        ⟨[], fun _ _ => none⟩).1.subs Side.far "b" = none) := by
  refine ⟨fun newRules subOk unsubOk rt rb bs => rfl, ?_, ?_, ?_, ?_⟩ <;> decide

/-- Subscription table after the startup `subscribe_to_topics` when every
subscribe call succeeds (a startup subscription failure is fatal, so a
running bridge started from table `st0` has exactly this table). -/
def startupSubs (reload_topic : Option String) (reload_broker : String)
    (rules : List BridgeRule) (st0 : SubState) : SubState :=
  (runOps (fun _ _ => true) (fun _ _ => true) st0
    (subscribe_to_topics_ops reload_topic reload_broker rules)).1

lemma runOps_success_last_sub (subOk unsubOk : Side → String → Bool) (st : SubState)
    (a : List SubOp) (sd : Side) (t : String) (q : QoS)
    (h : (runOps subOk unsubOk st (a ++ [SubOp.sub sd t q])).2 = true) :
    (runOps subOk unsubOk st (a ++ [SubOp.sub sd t q])).1 sd t = some q := by
  induction a generalizing st with
  | nil =>
    by_cases hok : subOk sd t = true
    · simp [runOps, hok, applyOp]
    · simp [runOps, hok] at h
  | cons op rest ih =>
    cases op with
    | sub sd2 t2 q2 =>
      by_cases hok : subOk sd2 t2 = true
      · simp only [List.cons_append, runOps, hok, if_true] at h ⊢
        exact ih _ h
      · simp [List.cons_append, runOps, hok] at h
    | unsub sd2 t2 =>
      by_cases hok : unsubOk sd2 t2 = true
      · simp only [List.cons_append, runOps, hok, if_true] at h ⊢
        exact ih _ h
      · simp only [List.cons_append, runOps, hok, if_false] at h ⊢
        exact ih _ h

lemma reload_identical_allOk (reload_topic : Option String) (reload_broker : String)
    (rules : List BridgeRule) (st0 : SubState) :
    reload_config (some rules) (fun _ _ => true) (fun _ _ => true)
        reload_topic reload_broker
        ⟨rules, startupSubs reload_topic reload_broker rules st0⟩ =
      (⟨rules, startupSubs reload_topic reload_broker rules st0⟩, true) := by
  have hB : startupSubs reload_topic reload_broker rules st0 =
      applyOps st0 (subscribe_to_topics_ops reload_topic reload_broker rules) := by
    rw [startupSubs, runOps_allOk]
  have hUS : ∀ k, k ∈ (rulesUnsubOps rules).map SubOp.key →
      k ∈ (subscribe_to_topics_ops reload_topic reload_broker rules).map SubOp.key := by
    intro k hk
    rw [rulesUnsubOps_keys] at hk
    simp only [subscribe_to_topics_ops, List.map_append, List.mem_append]
    exact Or.inl hk
  have key : applyOps (applyOps (startupSubs reload_topic reload_broker rules st0)
      (rulesUnsubOps rules)) (subscribe_to_topics_ops reload_topic reload_broker rules) =
      startupSubs reload_topic reload_broker rules st0 := by
    have h1 : applyOps (applyOps (startupSubs reload_topic reload_broker rules st0)
        (rulesUnsubOps rules)) (subscribe_to_topics_ops reload_topic reload_broker rules) =
        applyOps (startupSubs reload_topic reload_broker rules st0)
          (subscribe_to_topics_ops reload_topic reload_broker rules) := by
      apply applyOps_agree
      intro sd t h
      exact applyOps_frame _ _ sd t (fun hm => h (hUS _ hm))
    have h2 : applyOps (startupSubs reload_topic reload_broker rules st0)
        (subscribe_to_topics_ops reload_topic reload_broker rules) =
        startupSubs reload_topic reload_broker rules st0 := by
      rw [hB]
      apply applyOps_agree
      intro sd t h
      exact applyOps_frame _ st0 sd t h
    rw [h1, h2]
  simp only [reload_config, runOps_allOk]
  rw [key]

/-- C6: every successful reload re-establishes the reload-control
subscription itself: for ANY fresh snapshot, ANY subscribe and unsubscribe
outcomes and ANY prior bridge state, a `reload_config` call that returns
Ok leaves the reload topic subscribed at AtLeastOnce on the configured
side, because the reload runs the same `subscribe_to_topics` sequence as
startup, whose final operation is exactly that subscribe; and reloading a
snapshot identical to the active rules with all broker calls succeeding
returns Ok with the rules and the whole subscription table exactly as
before the reload (no leaked or duplicate subscriptions). -/
theorem reload_reestablishes_reload_subscription (reload_topic : Option String)
    (reload_broker : String) :
    (∀ (newRules : List BridgeRule) (subOk unsubOk : Side → String → Bool)
        (bs : BridgeState) (t : String),
      reload_topic = some t →
      (reload_config (some newRules) subOk unsubOk reload_topic reload_broker bs).2 = true →
      (reload_broker = "near" →
        (reload_config (some newRules) subOk unsubOk reload_topic reload_broker bs).1.subs
          Side.near t = some QoS.AtLeastOnce) ∧
      (reload_broker = "far" →
        (reload_config (some newRules) subOk unsubOk reload_topic reload_broker bs).1.subs
          Side.far t = some QoS.AtLeastOnce)) ∧
    (∀ (rules : List BridgeRule) (st0 : SubState),
      reload_config (some rules) (fun _ _ => true) (fun _ _ => true)
          reload_topic reload_broker
          ⟨rules, startupSubs reload_topic reload_broker rules st0⟩ =
        (⟨rules, startupSubs reload_topic reload_broker rules st0⟩, true)) := by
  constructor
  · intro newRules subOk unsubOk bs t ht hsucc
    subst ht
    refine ⟨fun hnear => ?_, fun hfar => ?_⟩
    · subst hnear
      have hlist : reloadSubOps (some t) "near" = [SubOp.sub Side.near t QoS.AtLeastOnce] := by
        simp [reloadSubOps]
      revert hsucc
      simp only [reload_config, subscribe_to_topics_ops, hlist]
      intro hsucc
      exact runOps_success_last_sub _ _ _ _ _ _ _ hsucc
    · subst hfar
      have hlist : reloadSubOps (some t) "far" = [SubOp.sub Side.far t QoS.AtLeastOnce] := by
        simp [reloadSubOps]
      revert hsucc
      simp only [reload_config, subscribe_to_topics_ops, hlist]
      intro hsucc
      exact runOps_success_last_sub _ _ _ _ _ _ _ hsucc
  · exact fun rules st0 => reload_identical_allOk reload_topic reload_broker rules st0

/-- Witness for C6: a successful reload that changes the rule set, with
every unsubscribe call failing (non-fatally), still ends with the
reload-control topic subscribed at AtLeastOnce on the near side. -/
theorem reload_reestablishes_reload_subscription_witness :
    (reload_config (some [⟨"b", Direction.FarToNear, false, 2⟩])
        (fun _ _ => true) (fun _ _ => false) (some "bridge/reload") "near"
        ⟨[⟨"a", Direction.NearToFar, false, 0⟩], fun _ _ => none⟩).2 = true ∧
    (reload_config (some [⟨"b", Direction.FarToNear, false, 2⟩])
        (fun _ _ => true) (fun _ _ => false) (some "bridge/reload") "near"
        ⟨[⟨"a", Direction.NearToFar, false, 0⟩], fun _ _ => none⟩).1.subs
      Side.near "bridge/reload" = some QoS.AtLeastOnce := by
  constructor
  · decide
  · exact ((reload_reestablishes_reload_subscription (some "bridge/reload") "near").1
      [⟨"b", Direction.FarToNear, false, 2⟩] (fun _ _ => true) (fun _ _ => false)
      ⟨[⟨"a", Direction.NearToFar, false, 0⟩], fun _ _ => none⟩ "bridge/reload" rfl
      (by decide)).1 rfl

/-- C10: a reload broker selector that is neither "near" nor "far" makes
`subscribe_to_topics` skip the reload subscribe on both brokers (the
catch-all arm only warns, so setup reduces to the rule subscribes and
still succeeds), and neither handler can ever take the reload path, since
each compares the selector against its own side's literal. -/
theorem invalid_reload_broker_disables_reload (reload_topic : Option String)
    (reload_broker : String) (h1 : reload_broker ≠ "near") (h2 : reload_broker ≠ "far") :
    reloadSubOps reload_topic reload_broker = [] ∧
    (∀ rules, subscribe_to_topics_ops reload_topic reload_broker rules = rulesSubOps rules) ∧
    (∀ rules p, handle_near_publish reload_topic reload_broker rules p ≠ HandleResult.reload) ∧
    (∀ rules p, handle_far_publish reload_topic reload_broker rules p ≠ HandleResult.reload) := by
  have hr : reloadSubOps reload_topic reload_broker = [] := by
    cases reload_topic with
    | none => rfl
    | some t => simp [reloadSubOps, h1, h2]
  refine ⟨hr, fun rules => by simp [subscribe_to_topics_ops, hr], ?_, ?_⟩ <;>
    intro rules p <;>
    cases reload_topic with
    | none => simp [handle_near_publish, handle_far_publish]
    | some t => simp [handle_near_publish, handle_far_publish, h1, h2]

/-- Witness for C10 with the selector "middle". -/
theorem invalid_reload_broker_disables_reload_witness :
    reloadSubOps (some "bridge/reload") "middle" = [] ∧
    handle_near_publish (some "bridge/reload") "middle" []
      ⟨"bridge/reload", [], QoS.AtMostOnce, false⟩ ≠ HandleResult.reload ∧
    handle_far_publish (some "bridge/reload") "middle" []
      ⟨"bridge/reload", [], QoS.AtMostOnce, false⟩ ≠ HandleResult.reload := by
  have h := invalid_reload_broker_disables_reload (some "bridge/reload") "middle"
    (by decide) (by decide)
  exact ⟨h.1, h.2.2.1 [] ⟨"bridge/reload", [], QoS.AtMostOnce, false⟩,
    h.2.2.2 [] ⟨"bridge/reload", [], QoS.AtMostOnce, false⟩⟩

/-- An event yielded by one eventloop poll in `Bridge::run` (main.rs): an
incoming publish, another incoming packet, an outgoing event, or a
connection error. -/
inductive MqttEvent
  | incomingPublish (p : Publish)
  | incomingOther
  | outgoing
  | connError
deriving DecidableEq, Repr

/-- Seconds the selected branch of `Bridge::run`'s loop body blocks before
the loop reaches its next select: the connection-error arm awaits an
inline five-second sleep inside the branch, every other arm returns
without sleeping (handler time is not modelled). -/
def branchDelay : MqttEvent → Nat
  | MqttEvent.connError => 5
  | _ => 0

/-- Time at which the next select of `Bridge::run` begins when the current
iteration starts at `now` and its selected branch handles event `e`.
Because the loop is a single task and the sleep is awaited inline inside
the selected branch, neither eventloop is polled again before this time:
the delay applies to both sources, not only the erroring one. -/
def nextSelectTime (now : Nat) (e : MqttEvent) : Nat :=
  now + branchDelay e

/-- C9 exhibit (code bug): a connection error on one source postpones the
next poll of BOTH sources by the full five seconds, while any non-error
event postpones nothing; so the healthy source's pending events wait out
the erroring source's pause, contrary to the claim that the pause never
delays the other side. -/
theorem conn_error_pause_delays_both_sources (now : Nat) (p : Publish) :
    nextSelectTime now MqttEvent.connError = now + 5 ∧
    now < nextSelectTime now MqttEvent.connError ∧
    nextSelectTime now (MqttEvent.incomingPublish p) = now := by
  refine ⟨rfl, ?_, rfl⟩
  simp [nextSelectTime, branchDelay]

end MrBridge
